import Mathlib

/-!
Verification of the temporallayr-server ingestion/streaming core.

Shallow embedding of the Python sources:
  - app/services/failure_detector.py   (detect_execution_failure)
  - app/rules/engine.py                (RuleEngine.evaluate_event, _evaluate_condition)
  - app/stream/manager.py              (StreamManager.publish_event)
  - app/stream/stream_manager.py       (StreamManager.broadcast_event)
  - app/services/ingestion_service.py  (_process_queue, _write_batch, enqueue)
  - app/query/engine.py                (_execute_with_safeguards, search_events, search_incidents)

Python values are modelled by the inductive `PyVal`; Python numbers are
modelled as `Int` (the repository's payloads carry counts and millisecond
durations).  Machine-level details that cannot influence any of the stated
properties (string-escape sequences inside `repr`, non-ASCII lowercasing)
are noted at the definition they concern.
-/

/-- A Python/JSON value as it flows through the ingestion pipeline.
Dict keys coming from JSON payloads are strings; insertion order is the
list order, as in CPython 3.7+ dicts. -/
inductive PyVal where
  | none : PyVal
  | bool (b : Bool) : PyVal
  | int (n : Int) : PyVal
  | str (s : String) : PyVal
  | list (xs : List PyVal) : PyVal
  | dict (entries : List (String × PyVal)) : PyVal

/-- `d.get(key)` on a dict: the value stored under `key`, if any; `none`
for any non-dict receiver (Python would raise, but every call site in the
embedded code is guarded by an `isinstance` check or a known-dict value). -/
def dictGet (v : PyVal) (key : String) : Option PyVal :=
  match v with
  | PyVal.dict entries => (entries.find? (fun kv => kv.1 == key)).map (fun kv => kv.2)
  | _ => Option.none

/-- `d.get(key)` with no default: `None` when the key is absent. -/
def pyGet (v : PyVal) (key : String) : PyVal :=
  (dictGet v key).getD PyVal.none

/-- `d.get(key, default)`. -/
def pyGetD (v : PyVal) (key : String) (default : PyVal) : PyVal :=
  (dictGet v key).getD default

/-- Python truthiness (`bool(x)`): `None`, `False`, `0`, `""`, `[]`, `{}`
are falsy, everything else truthy. -/
def pyTruthy : PyVal → Bool
  | PyVal.none => false
  | PyVal.bool b => b
  | PyVal.int n => n != 0
  | PyVal.str s => !s.isEmpty
  | PyVal.list xs => !xs.isEmpty
  | PyVal.dict es => !es.isEmpty

/-- Python `a or b`. -/
def pyOr (a b : PyVal) : PyVal :=
  if pyTruthy a then a else b

/-- `isinstance(v, dict)`. -/
def isDictV : PyVal → Bool
  | PyVal.dict _ => true
  | _ => false

/-- `isinstance(v, list)`. -/
def isListV : PyVal → Bool
  | PyVal.list _ => true
  | _ => false

mutual
/-- `repr(v)` for the modelled values, which is also `str(v)` for every
non-string value (CPython).  String-escape sequences are not modelled:
escaping only inserts backslashes, so it can neither create nor destroy an
occurrence of the plain-letter markers `error`/`exception`/`traceback`
that the detector greps for. -/
def pyRepr : PyVal → String
  | PyVal.none => "None"
  | PyVal.bool true => "True"
  | PyVal.bool false => "False"
  | PyVal.int n => toString n
  | PyVal.str s => "'" ++ s ++ "'"
  | PyVal.list xs => "[" ++ pyReprList xs ++ "]"
  | PyVal.dict es => "\x7b" ++ pyReprEntries es ++ "\x7d"

/-- Comma-separated `repr` of list elements. -/
def pyReprList : List PyVal → String
  | [] => ""
  | [x] => pyRepr x
  | x :: y :: xs => pyRepr x ++ ", " ++ pyReprList (y :: xs)

/-- Comma-separated `'key': repr(value)` of dict entries. -/
def pyReprEntries : List (String × PyVal) → String
  | [] => ""
  | [(k, v)] => "'" ++ k ++ "': " ++ pyRepr v
  | (k, v) :: e :: es => "'" ++ k ++ "': " ++ pyRepr v ++ ", " ++ pyReprEntries (e :: es)
end

/-- `str(v)`: like `repr` except that a top-level string prints bare. -/
def pyStr : PyVal → String
  | PyVal.str s => s
  | v => pyRepr v

/-- ASCII lowercasing of one character (`str.lower()`; the failure
markers and every key the detector compares are ASCII). -/
def toLowerAsciiChar (c : Char) : Char :=
  if 'A' ≤ c ∧ c ≤ 'Z' then Char.ofNat (c.toNat + 32) else c

/-- `s.lower()` over the modelled (ASCII) alphabet. -/
def strToLower (s : String) : String :=
  ⟨s.toList.map toLowerAsciiChar⟩

/-- Python `needle in hay` on character lists (`"" in s` is `True`). -/
def listHasInfix (needle : List Char) : List Char → Bool
  | [] => needle.isEmpty
  | c :: rest => needle.isPrefixOf (c :: rest) || listHasInfix needle rest

/-- Python `needle in hay` for strings. -/
def strContainsSub (hay needle : String) : Bool :=
  listHasInfix needle.toList hay.toList

/-- The incident skeleton built by `detect_execution_failure`
(failure_detector.py lines 40-49).  The structure deliberately has no
`fingerprint` and no `occurrence_count` field: those are computed by the
caller (`_write_batch`). -/
structure FailureIncident where
  tenant_id : PyVal
  execution_id : PyVal
  timestamp : PyVal
  failure_type : String
  node_name : PyVal
  summary : String

/-- failure_detector.py lines 35-38: `str(metadata).lower()` contains one
of the failure markers.  `.lower()` is modelled by ASCII lowercasing; the
markers themselves are ASCII. -/
def failureMarkerIn (metadata : PyVal) : Bool :=
  let meta_str := strToLower (pyRepr metadata)
  strContainsSub meta_str "error" || strContainsSub meta_str "exception"
    || strContainsSub meta_str "traceback"

/-- failure_detector.py lines 40-49: the returned incident dictionary. -/
def failureSkeleton (execution node : PyVal) : FailureIncident :=
  { tenant_id := pyGetD execution "tenant_id" (PyVal.str "unknown")
    execution_id := pyOr (pyGet execution "execution_id")
      (pyGetD execution "id" (PyVal.str "unknown"))
    timestamp := pyOr (pyGet node "created_at")
      (pyGetD execution "created_at" (PyVal.str "unknown"))
    failure_type := "runtime_error"
    node_name := pyGetD node "name" (PyVal.str "unknown")
    summary := "Execution failure detected in node metadata." }

/-- The `for node in nodes` loop of failure_detector.py lines 27-49:
non-dict nodes and non-dict metadata are skipped (`continue`); the first
node whose metadata carries a failure marker wins. -/
def scanNodesForFailure (execution : PyVal) : List PyVal → Option FailureIncident
  | [] => Option.none
  | node :: rest =>
    if isDictV node then
      let metadata := pyGetD node "metadata" (PyVal.dict [])
      if isDictV metadata then
        if failureMarkerIn metadata then some (failureSkeleton execution node)
        else scanNodesForFailure execution rest
      else scanNodesForFailure execution rest
    else scanNodesForFailure execution rest

/-- failure_detector.py lines 16-22: `graph = execution.get("graph", {})`;
if the graph is a dict containing a `nodes` key take `graph.get("nodes")`,
else `execution.get("nodes", [])`. -/
def extractNodes (execution : PyVal) : PyVal :=
  let graph := pyGetD execution "graph" (PyVal.dict [])
  if isDictV graph && (dictGet graph "nodes").isSome then pyGet graph "nodes"
  else pyGetD execution "nodes" (PyVal.list [])

/-- failure_detector.py `detect_execution_failure`: total function — the
source never raises on malformed input, returning `None` instead; the
embedding returns `Option.none` on the same branches. -/
def detect_execution_failure (execution : PyVal) : Option FailureIncident :=
  if isDictV execution then
    match extractNodes execution with
    | PyVal.list ns => scanNodesForFailure execution ns
    | _ => Option.none
  else Option.none

/-- A node "hits" when the detector loop would return on it: it is a dict,
its metadata is a dict, and the metadata's string form carries a marker. -/
def nodeHits (node : PyVal) : Bool :=
  isDictV node && (isDictV (pyGetD node "metadata" (PyVal.dict []))
    && failureMarkerIn (pyGetD node "metadata" (PyVal.dict [])))

/-! ## RuleEngine (app/rules/engine.py) -/

/-- A Python numeric operand as `_evaluate_condition` compares it: ints and
bools (`True == 1`) are numbers; anything else raises `TypeError`, which
the enclosing `except` turns into `False`.  Numbers are modelled as `Int`. -/
def pyNum : PyVal → Option Int
  | PyVal.bool b => some (if b then 1 else 0)
  | PyVal.int n => some n
  | _ => Option.none

/-- Python `a > b` inside `_evaluate_condition`: a `TypeError` on
non-numeric operands is caught by the surrounding `except` and yields
`False` for that rule. -/
def pyGtB (a b : PyVal) : Bool :=
  match pyNum a, pyNum b with
  | some x, some y => y < x
  | _, _ => false

/-- Python `float(v)` as used by the `custom_expression` branch: numbers
convert; strings parse when they are integer literals (fractional literals
are outside the `Int` number model); everything else raises, which the
`except (ValueError, TypeError)` turns into no-match. -/
def pyFloat : PyVal → Option Int
  | PyVal.bool b => some (if b then 1 else 0)
  | PyVal.int n => some n
  | PyVal.str s => s.toInt?
  | _ => Option.none

/-- rules/models.py `RuleCondition`: the `type` literal and the loosely
typed `parameters` dict. -/
structure RuleCondition where
  type : String
  parameters : PyVal

/-- rules/models.py `RuleActions`. -/
structure RuleActions where
  create_incident : Bool
  severity : String
  notify : Bool

/-- rules/models.py `RuleSchema` (the uuid and created_at fields play no
role in evaluation and are kept as plain data). -/
structure RuleSchema where
  id : String
  tenant_id : String
  name : String
  enabled : Bool
  priority : Int
  condition : RuleCondition
  actions : RuleActions

/-- rules/engine.py `RuleEngine._evaluate_condition`: the `if/elif` chain
over the five condition types; every exception inside a branch is caught
and treated as non-match for that rule only. -/
def evaluate_condition (rule : RuleSchema) (event : PyVal) : Bool :=
  let cond_type := rule.condition.type
  let params := rule.condition.parameters
  if cond_type = "execution_latency" then
    pyGtB (pyGetD event "duration" (PyVal.int 0)) (pyGetD params "threshold" (PyVal.int 0))
  else if cond_type = "divergence_detected" then
    let metadata := pyGetD event "metadata" (PyVal.dict [])
    if isDictV metadata then
      match pyGet metadata "diverged" with
      | PyVal.bool true => true
      | _ => false
    else false
  else if cond_type = "node_error_rate" then
    match pyNum (pyGetD params "threshold" (PyVal.int 1)) with
    | some threshold =>
      if threshold ≤ 1 then
        let meta_str := strToLower (pyStr (pyGetD event "metadata" (PyVal.dict [])))
        strContainsSub meta_str "error" || strContainsSub meta_str "exception"
      else false
    | Option.none => false
  else if cond_type = "cluster_anomaly" then
    pyGtB (pyGetD event "cluster_size" (PyVal.int 0)) (pyGetD params "threshold" (PyVal.int 100))
  else if cond_type = "custom_expression" then
    match pyGetD params "field" (PyVal.str "") with
    | PyVal.str field_name =>
      if !field_name.isEmpty then
        match dictGet event field_name with
        | some v =>
          match pyFloat v, pyFloat (pyGetD params "value" (PyVal.int 0)) with
          | some val, some target => target < val
          | _, _ => false
        | Option.none => false
      else false
    | _ => false
  else false

/-- The relation `sorted(rules, key=lambda r: r.priority, reverse=True)`
sorts by: higher (or equal) priority first. -/
def rulePriorityGE (a b : RuleSchema) : Prop := b.priority ≤ a.priority

instance : DecidableRel rulePriorityGE := fun a b => Int.decLe b.priority a.priority

instance : IsTotal RuleSchema rulePriorityGE := ⟨fun a b => le_total b.priority a.priority⟩

instance : IsTrans RuleSchema rulePriorityGE := ⟨fun _ _ _ h₁ h₂ => le_trans h₂ h₁⟩

/-- engine.py line 29: `sorted(rules, key=lambda r: r.priority, reverse=True)`.
Insertion sort is stable, like Python's sort. -/
def sortRulesByPriority (rules : List RuleSchema) : List RuleSchema :=
  List.insertionSort rulePriorityGE rules

/-- engine.py `RuleEngine.evaluate_event` lines 19-46: no (truthy) tenant
on the event or an empty rule list returns `None`; otherwise the rules are
sorted by priority descending and scanned in order, disabled rules are
skipped without evaluating their condition, and the first enabled rule
whose condition triggers is returned. -/
def evaluate_event (rules : List RuleSchema) (event : PyVal) : Option RuleSchema :=
  if !pyTruthy (pyGet event "tenant_id") then Option.none
  else if rules.isEmpty then Option.none
  else (sortRulesByPriority rules).find? (fun r => r.enabled && evaluate_condition r event)

/-! ## Fan-out broadcasters (app/stream/manager.py, app/stream/stream_manager.py) -/

/-- One bounded enqueue with the drop-oldest backpressure policy shared by
`StreamManager.broadcast_event` (stream_manager.py lines 71-85, maxsize
100) and `StreamManager.publish_event` (manager.py lines 112-125, maxsize
1000): when the queue is full, `get_nowait()` removes the oldest item,
then `put_nowait(event)` appends the new one (the `except QueueFull`
branch is unreachable for a positive maxsize once the oldest was dropped). -/
def streamPut (maxsize : Nat) (queue : List α) (event : α) : List α :=
  let queue := if maxsize ≤ queue.length then queue.drop 1 else queue
  if queue.length < maxsize then queue ++ [event] else queue

/-- A live subscriber as `StreamManager.subscribe` (manager.py lines
20-45) registers it: tenant, the optional `node` filter (`"node" in
filters`), the `incident_only` flag (`filters.get("incident_only") is
True`), and the bounded outbound queue. -/
structure Subscriber where
  tenant_id : String
  node_filter : Option String
  incident_only : Bool
  queue : List PyVal

/-- manager.py lines 106-107: `filters["node"] != event_node` with
`event_node = event.get("node", "")`.  A string filter value is equal to a
non-string event node never (Python cross-type `==` is `False` here). -/
def nodeFilterMatches (filterNode : String) (event : PyVal) : Bool :=
  match pyGetD event "node" (PyVal.str "") with
  | PyVal.str s => filterNode == s
  | _ => false

/-- The three `continue` guards of `publish_event` (manager.py lines
97-110), conjoined: the subscriber's tenant equals the event's tenant, the
`node` filter (when set) matches, and `incident_only` (when set) requires
a truthy `incident_flag`. -/
def publishAccepts (sub : Subscriber) (event : PyVal) : Bool :=
  (match pyGet event "tenant_id" with
   | PyVal.str t => sub.tenant_id == t
   | _ => false)
  && (match sub.node_filter with
      | some x => nodeFilterMatches x event
      | Option.none => true)
  && (!sub.incident_only || pyTruthy (pyGetD event "incident_flag" (PyVal.bool false)))

/-- manager.py `StreamManager.publish_event` lines 85-125: a falsy
`tenant_id` on the event returns immediately; otherwise every subscriber
passing the guards gets the event through the bounded drop-oldest queue
(maxsize 1000), all others are untouched. -/
def publish_event (subs : List Subscriber) (event : PyVal) : List Subscriber :=
  if !pyTruthy (pyGet event "tenant_id") then subs
  else subs.map (fun sub =>
    if publishAccepts sub event then { sub with queue := streamPut 1000 sub.queue event }
    else sub)

/-- Every event sitting in the subscriber's queue passes that subscriber's
guards: same tenant, matching node filter, incident flag when demanded. -/
def queueInvariant (sub : Subscriber) : Prop :=
  ∀ e ∈ sub.queue, publishAccepts sub e = true

/-! ## IngestionPipeline (app/services/ingestion_service.py) -/

/-- One element of the ingestion queue (`{"tenant_id": tenant_id, "event":
event}`, ingestion_service.py line 57).  `enqueue`'s `tenant_id` parameter
is a string. -/
structure QueueItem where
  tenant_id : String
  event : PyVal

/-- Python `d[key] = val` on a dict: replace in place when the key exists,
append otherwise (CPython 3.7+ insertion order); a non-dict receiver
raises `TypeError`, modelled as `Option.none`. -/
def pySetItem (v : PyVal) (key : String) (val : PyVal) : Option PyVal :=
  match v with
  | PyVal.dict entries =>
    if (entries.find? (fun kv => kv.1 == key)).isSome then
      some (PyVal.dict (entries.map (fun kv => if kv.1 == key then (kv.1, val) else kv)))
    else some (PyVal.dict (entries ++ [(key, val)]))
  | _ => Option.none

/-- ingestion_service.py line 56 (`enqueue`): the server-side receipt
stamp `event["_ingested_at"] = datetime.now(UTC).isoformat()` forced onto
every event before it is queued. -/
def enqueueStamp (now : String) (event : PyVal) : Option PyVal :=
  pySetItem event "_ingested_at" (PyVal.str now)

/-- ingestion_service.py lines 160-161 (`_write_batch` detection loop):
`tenant_id` is written into the event payload when the key is absent and
the item carries a (truthy) tenant. -/
def bindTenant (item : QueueItem) : Option PyVal :=
  match item.event with
  | PyVal.dict _ =>
    if (dictGet item.event "tenant_id").isSome then some item.event
    else if !item.tenant_id.isEmpty then
      pySetItem item.event "tenant_id" (PyVal.str item.tenant_id)
    else some item.event
  | _ => Option.none

/-- ingestion_service.py lines 78-92: the flush branch of the worker loop.
Returns the batch after the attempt and whether the 5 s backoff sleep ran:
an empty batch is not written; a successful write clears the batch
(`batch.clear()`); a failed write keeps the batch untouched and backs off. -/
def flushBatch (batch : List QueueItem) (writeOk : Bool) : List QueueItem × Bool :=
  if batch.isEmpty = true then (batch, false)
  else if writeOk = true then ([], false)
  else (batch, true)

/-- One iteration of `_process_queue` (ingestion_service.py lines 64-92):
an optionally arrived item is appended, then the dual trigger (size
reached `max_batch_size`, or the flush timer expired) decides whether the
flush branch runs.  `writeOk` is `_write_batch`'s return value. -/
def workerIteration (max_batch_size : Nat) (batch : List QueueItem)
    (arrived : Option QueueItem) (timerExpired writeOk : Bool) :
    List QueueItem × Bool :=
  let batch := batch ++ arrived.toList
  if max_batch_size ≤ batch.length ∨ timerExpired = true then flushBatch batch writeOk
  else (batch, false)

/-- The storage write of a batch (`bulk_insert_events` under
`asyncio.wait_for(..., timeout=10.0)`, ingestion_service.py lines
138-151): it succeeds, reports failure, or exceeds the 10 s timeout. -/
inductive StorageOutcome where
  | ok : StorageOutcome
  | failed : StorageOutcome
  | timedOut : StorageOutcome
deriving DecidableEq

/-- One fire-and-forget `execution_ingested` EventStream publish
(ingestion_service.py lines 117-132). -/
structure IngestedPublish where
  execution_id : PyVal
  tenant_id : String

/-- ingestion_service.py lines 117-132: the pre-write publish loop.
`exec_id = event.get("execution_id") or event.get("id")`; a publish fires
only when both `exec_id` and the tenant are truthy. -/
def ingestedPublishes (batch : List QueueItem) : List IngestedPublish :=
  (batch.filter (fun item =>
      pyTruthy (pyOr (pyGet item.event "execution_id") (pyGet item.event "id"))
        && !item.tenant_id.isEmpty)).map
    (fun item =>
      { execution_id := pyOr (pyGet item.event "execution_id") (pyGet item.event "id")
        tenant_id := item.tenant_id })

/-- The observable effects of one `_write_batch` call. -/
structure WriteBatchTrace where
  stream_publishes : List IngestedPublish
  success : Bool
  detection_processed : List QueueItem

/-- ingestion_service.py `_write_batch` (lines 104-328) at the batch
level: the lightweight EventStream publishes fire before and independently
of the storage write; on a failed or timed-out write the function returns
`False` at lines 146/151 ("Halting batch to preserve events"), so the
per-event detection/broadcast/incident loop (lines 157-326) runs only for
a successfully written batch, and then for every item of it. -/
def writeBatchEffects (batch : List QueueItem) (storage : StorageOutcome) :
    WriteBatchTrace :=
  let pubs := ingestedPublishes batch
  match storage with
  | StorageOutcome.ok =>
    { stream_publishes := pubs, success := true, detection_processed := batch }
  | StorageOutcome.failed =>
    { stream_publishes := pubs, success := false, detection_processed := [] }
  | StorageOutcome.timedOut =>
    { stream_publishes := pubs, success := false, detection_processed := [] }

/-! ### Incident upsert-or-increment (ingestion_service.py lines 237-326) -/

/-- A row of the `incidents` table (app/models/event.py); the uuid primary
key is modelled as a `Nat` handed in by the caller, the timestamp as
seconds since the epoch. -/
structure IncidentRow where
  id : Nat
  tenant_id : String
  execution_id : PyVal
  timestamp : Int
  failure_type : String
  node_name : PyVal
  summary : String
  fingerprint : String
  occurrence_count : Nat

/-- ingestion_service.py lines 256-257: `fp_raw =
f"{failure_type}:{node_name}"`, then sha256-hexdigest.  The hash is
modelled by its preimage `fp_raw`: the pipeline only ever compares
fingerprints for equality, and sha256 is a deterministic function, so
equal `(failure_type, node_name)` pairs agree in both.  The f-string
applies `str()` to the node name. -/
def incidentFingerprint (failure_type : String) (node_name : PyVal) : String :=
  failure_type ++ ":" ++ pyStr node_name

/-- The detection output that reaches the upsert (the `incident_data`
dict): its tenant and failure type are strings on both producing paths
(`detect_execution_failure` falls back to `"unknown"`; the rule path uses
the rule's tenant-scoped event and condition type). -/
structure IncidentData where
  tenant_id : String
  execution_id : PyVal
  failure_type : String
  node_name : PyVal
  summary : String

/-- The WHERE clause of the dedup SELECT (ingestion_service.py lines
265-272): same tenant, same fingerprint, `timestamp >= dt - 24h`. -/
def rowMatchesQuery (tenant fingerprint : String) (cutoff : Int)
    (r : IncidentRow) : Bool :=
  r.tenant_id == tenant && (r.fingerprint == fingerprint && cutoff ≤ r.timestamp)

/-- `ORDER BY timestamp DESC LIMIT 1` over the rows matching `p`: the
index and timestamp of the selected row.  Ties on the timestamp are
resolved to the earlier row; the backend's order among equal timestamps
is unspecified and no claim depends on it. -/
def bestMatchIdx (p : IncidentRow → Bool) : List IncidentRow → Option (Nat × Int)
  | [] => Option.none
  | r :: rest =>
    match bestMatchIdx p rest with
    | some (j, t) =>
      if p r then
        if r.timestamp < t then some (j + 1, t) else some (0, r.timestamp)
      else some (j + 1, t)
    | Option.none => if p r then some (0, r.timestamp) else Option.none

/-- Replace the element at index `i` (the ORM mutation of the selected
row; out-of-range indices leave the list unchanged). -/
def updateAt (l : List α) (i : Nat) (f : α → α) : List α :=
  match l, i with
  | [], _ => []
  | x :: xs, 0 => f x :: xs
  | x :: xs, Nat.succ j => x :: updateAt xs j f

/-- ingestion_service.py lines 259-316 with storage available: look up an
open incident for this tenant and fingerprint in the last 24 h; increment
`occurrence_count` and advance `timestamp` on a hit, insert a fresh row
with `occurrence_count = 1` otherwise.  The returned flag is `not
existing_incident`, which is exactly the guard under which
`process_incident` (the alert dispatch) is awaited at lines 305-316. -/
def incidentUpsert (db : List IncidentRow) (newId : Nat) (inc : IncidentData)
    (dt : Int) : List IncidentRow × Bool :=
  let fingerprint := incidentFingerprint inc.failure_type inc.node_name
  let cutoff := dt - 86400
  match bestMatchIdx (rowMatchesQuery inc.tenant_id fingerprint cutoff) db with
  | some (i, _) =>
    (updateAt db i (fun r =>
      { r with occurrence_count := r.occurrence_count + 1, timestamp := dt }), false)
  | Option.none =>
    (db ++ [{ id := newId, tenant_id := inc.tenant_id,
              execution_id := inc.execution_id, timestamp := dt,
              failure_type := inc.failure_type, node_name := inc.node_name,
              summary := inc.summary, fingerprint := fingerprint,
              occurrence_count := 1 }], true)

/-! ## QueryEngine (app/query/engine.py) -/

/-- How the statement execution inside `_execute_with_safeguards` ends:
normally, by the `asyncio.wait_for` timeout (default 2 s), or with a
storage exception. -/
inductive DbOutcome where
  | ok : DbOutcome
  | timeout : DbOutcome
  | dbError : DbOutcome
deriving DecidableEq

/-- query/engine.py `_execute_with_safeguards` lines 23-53: `rows` are the
rows the statement would yield in order (the storage port's answer to the
already-built WHERE/ORDER BY/OFFSET statement).  The requested limit is
capped at `max_limit` and stamped onto the statement; a timeout or any
exception is swallowed, leaving the initial empty `results` and setting
the partial flag.  The function always returns — nothing is raised to the
caller. -/
def executeWithSafeguards (max_limit : Nat) (rows : List α)
    (outcome : DbOutcome) (limit : Nat) : List α × Bool :=
  let actual_limit := min limit max_limit
  match outcome with
  | DbOutcome.ok => (rows.take actual_limit, false)
  | DbOutcome.timeout => ([], true)
  | DbOutcome.dbError => ([], true)

/-- A row of the `events` table as `search_events` reads it. -/
structure EventRow where
  tenant_id : String
  timestamp : Int
  payload : PyVal

/-- query/models.py `QueryResult`; the source field `partial` (a reserved
word here) is rendered `partial_flag`. -/
structure QueryResult where
  data : List PyVal
  total : Nat
  partial_flag : Bool
  warning : Option String

/-- query/engine.py `search_events` lines 55-107: `selected` are the rows
matching the statement's filters in sort order (storage-port contract);
the offset is stamped on the statement (line 92), the safeguarded
execution applies the capped limit, and the result is hydrated with
`total=len(data)`. -/
def search_events (max_limit : Nat) (selected : List EventRow)
    (outcome : DbOutcome) (limit offset : Nat) : QueryResult :=
  let res := executeWithSafeguards max_limit (selected.drop offset) outcome limit
  let data := res.1.map (fun r => r.payload)
  { data := data, total := data.length, partial_flag := res.2,
    warning := if res.2 then
        some "Partial results returned due to heavy query limits."
      else Option.none }

/-- The serialized incident dict of `search_incidents` lines 142-154 (the
uuid and the timestamp isoformat rendered as decimal strings). -/
def incidentRowDict (r : IncidentRow) : PyVal :=
  PyVal.dict [("id", PyVal.str (toString r.id)),
              ("execution_id", r.execution_id),
              ("timestamp", PyVal.str (toString r.timestamp)),
              ("failure_type", PyVal.str r.failure_type),
              ("node_name", r.node_name),
              ("summary", PyVal.str r.summary),
              ("fingerprint", PyVal.str r.fingerprint),
              ("occurrence_count", PyVal.int r.occurrence_count)]

/-- query/engine.py `search_incidents` lines 109-159: same offset/capped
limit plumbing as `search_events`, serializing each row and returning
`total=len(data)`. -/
def search_incidents (max_limit : Nat) (selected : List IncidentRow)
    (outcome : DbOutcome) (limit offset : Nat) : QueryResult :=
  let res := executeWithSafeguards max_limit (selected.drop offset) outcome limit
  let data := res.1.map incidentRowDict
  { data := data, total := data.length, partial_flag := res.2,
    warning := if res.2 then some "Partial results returned natively."
      else Option.none }

/-! ## Theorems -/

/-- A concrete queued item: tenant `tenant-a`, one event carrying an
`execution_id`. -/
def sampleItem : QueueItem :=
  { tenant_id := "tenant-a"
    event := PyVal.dict [("execution_id", PyVal.str "exec-1")] }

/-- C2 counterexample: for the one-item batch `[sampleItem]` whose storage
write fails, no event of the batch enters the per-event rule-evaluation /
detection / upsert / broadcast loop — `_write_batch` returns `False` at
line 146 before that loop; only the lightweight EventStream publish
fired.  This refutes the claim that every event still undergoes detection
and fan-out broadcast when the write fails. -/
theorem C2_counterexample :
    (writeBatchEffects [sampleItem] StorageOutcome.failed).detection_processed = [] ∧
    ¬ (∀ item ∈ [sampleItem],
        item ∈ (writeBatchEffects [sampleItem] StorageOutcome.failed).detection_processed) := by
  refine ⟨rfl, ?_⟩
  intro h
  have hmem := h sampleItem (by simp)
  simp [writeBatchEffects] at hmem

/-- C2 amended: the lightweight `execution_ingested` EventStream publishes
fire for every batch independently of the storage outcome, but on a failed
or timed-out write `_write_batch` returns `False` ("Halting batch to
preserve events") and the rule-evaluation / detection / incident-upsert /
fan-out loop is skipped for the whole batch (it runs, for every item, only
after a successful write; the retained batch is retried later, see C3). -/
theorem C2_detection_only_after_successful_write (batch : List QueueItem)
    (storage : StorageOutcome) :
    (writeBatchEffects batch storage).stream_publishes = ingestedPublishes batch ∧
    (storage ≠ StorageOutcome.ok →
      (writeBatchEffects batch storage).success = false ∧
      (writeBatchEffects batch storage).detection_processed = []) ∧
    (storage = StorageOutcome.ok →
      (writeBatchEffects batch storage).success = true ∧
      (writeBatchEffects batch storage).detection_processed = batch) := by
  cases storage <;> simp [writeBatchEffects]

/-- Witness for C2: the amended theorem at the concrete one-item batch
with a failed write. -/
theorem C2_detection_only_after_successful_write_witness :
    (writeBatchEffects [sampleItem] StorageOutcome.failed).stream_publishes
        = ingestedPublishes [sampleItem] ∧
    (writeBatchEffects [sampleItem] StorageOutcome.failed).success = false ∧
    (writeBatchEffects [sampleItem] StorageOutcome.failed).detection_processed = [] := by
  have h := C2_detection_only_after_successful_write [sampleItem] StorageOutcome.failed
  exact ⟨h.1, (h.2.1 (by decide)).1, (h.2.1 (by decide)).2⟩

/-- C3: whenever a flush attempt fails (`_write_batch` returned `False`,
covering both the reported failure and the 10 s timeout), the worker keeps
the batch exactly as it was — no event is removed — and sleeps the fixed
5 s backoff before the loop tries the same batch again; the batch becomes
empty only through a successful write (or by having been empty). -/
theorem C3_failed_flush_retains_batch (max_batch_size : Nat)
    (batch : List QueueItem) (arrived : Option QueueItem) (timerExpired : Bool) :
    (workerIteration max_batch_size batch arrived timerExpired false).1
        = batch ++ arrived.toList ∧
    ((max_batch_size ≤ (batch ++ arrived.toList).length ∨ timerExpired = true) →
      batch ++ arrived.toList ≠ [] →
      workerIteration max_batch_size batch arrived timerExpired false
        = (batch ++ arrived.toList, true)) ∧
    ((max_batch_size ≤ (batch ++ arrived.toList).length ∨ timerExpired = true) →
      workerIteration max_batch_size batch arrived timerExpired true = ([], false)) ∧
    (∀ writeOk, (workerIteration max_batch_size batch arrived timerExpired writeOk).1 = [] →
      batch ++ arrived.toList = [] ∨ writeOk = true) := by
  have key : ∀ (b : List QueueItem),
      (flushBatch b false).1 = b ∧
      (b ≠ [] → flushBatch b false = (b, true)) ∧
      flushBatch b true = ([], false) ∧
      (∀ writeOk, (flushBatch b writeOk).1 = [] → b = [] ∨ writeOk = true) := by
    intro b
    by_cases hemp : b = []
    · subst hemp
      exact ⟨rfl, fun h => absurd rfl h, rfl, fun _ _ => Or.inl rfl⟩
    · have he : b.isEmpty = false := by simp [List.isEmpty_iff, hemp]
      refine ⟨by simp [flushBatch, he], fun _ => by simp [flushBatch, he],
        by simp [flushBatch, he], ?_⟩
      intro w h1
      cases w with
      | false => simp [flushBatch, he] at h1; exact Or.inl h1
      | true => exact Or.inr rfl
  have hunfold : ∀ w, workerIteration max_batch_size batch arrived timerExpired w
      = if max_batch_size ≤ (batch ++ arrived.toList).length ∨ timerExpired = true
        then flushBatch (batch ++ arrived.toList) w
        else (batch ++ arrived.toList, false) := fun _ => rfl
  refine ⟨?_, ?_, ?_, ?_⟩
  · rw [hunfold]
    by_cases htrig : max_batch_size ≤ (batch ++ arrived.toList).length ∨ timerExpired = true
    · rw [if_pos htrig]; exact (key _).1
    · rw [if_neg htrig]
  · intro htrig hne
    rw [hunfold, if_pos htrig]
    exact (key _).2.1 hne
  · intro htrig
    rw [hunfold, if_pos htrig]
    exact (key _).2.2.1
  · intro w h1
    rw [hunfold] at h1
    by_cases htrig : max_batch_size ≤ (batch ++ arrived.toList).length ∨ timerExpired = true
    · rw [if_pos htrig] at h1
      exact (key _).2.2.2 w h1
    · rw [if_neg htrig] at h1
      exact Or.inl h1

/-- Witness for C3: a nonempty one-item batch with the flush timer
expired — the failed write retains the item and backs off, the successful
write clears the batch. -/
theorem C3_failed_flush_retains_batch_witness :
    (workerIteration 500 [sampleItem] Option.none true false).1 = [sampleItem] ∧
    workerIteration 500 [sampleItem] Option.none true false = ([sampleItem], true) ∧
    workerIteration 500 [sampleItem] Option.none true true = ([], false) := by
  have h := C3_failed_flush_retains_batch 500 [sampleItem] Option.none true
  refine ⟨by simpa using h.1, by simpa using h.2.1 (Or.inr rfl) (by simp), ?_⟩
  simpa using h.2.2.1 (Or.inr rfl)

/-- A concrete event row used by the query witnesses. -/
def evRow (t : Int) : EventRow :=
  { tenant_id := "tenant-a", timestamp := t, payload := PyVal.dict [] }

/-- C4: on a statement-execution timeout (the `asyncio.wait_for` default
2 s bound) or any storage exception, the safeguarded execution swallows
the fault — the searches return a `QueryResult` with the partial flag set
and empty data instead of raising (the embedding is a total function, as
the source catches every exception on this path) — and in every case the
returned page holds at most `min(requested limit, 5000)` rows, the
default `max_limit` of the `query_engine` singleton. -/
theorem C4_timeout_returns_partial_never_raises (sel_e : List EventRow)
    (sel_i : List IncidentRow) (outcome : DbOutcome) (limit offset : Nat) :
    (outcome ≠ DbOutcome.ok →
      search_events 5000 sel_e outcome limit offset
        = { data := [], total := 0, partial_flag := true,
            warning := some "Partial results returned due to heavy query limits." } ∧
      search_incidents 5000 sel_i outcome limit offset
        = { data := [], total := 0, partial_flag := true,
            warning := some "Partial results returned natively." }) ∧
    (search_events 5000 sel_e outcome limit offset).data.length ≤ min limit 5000 ∧
    (search_incidents 5000 sel_i outcome limit offset).data.length ≤ min limit 5000 := by
  cases outcome <;>
    simp [search_events, search_incidents, executeWithSafeguards, List.length_take]

/-- Witness for C4: a timed-out search over a one-row table returns the
empty partial result. -/
theorem C4_timeout_returns_partial_never_raises_witness :
    search_events 5000 [evRow 0] DbOutcome.timeout 10 0
      = { data := [], total := 0, partial_flag := true,
          warning := some "Partial results returned due to heavy query limits." } ∧
    search_incidents 5000 [] DbOutcome.timeout 10 0
      = { data := [], total := 0, partial_flag := true,
          warning := some "Partial results returned natively." } := by
  have h := C4_timeout_returns_partial_never_raises [evRow 0] [] DbOutcome.timeout 10 0
  exact h.1 (by decide)

/-- C10: both searches return `total = len(data)` — the size of the
returned page, not the number of matching rows in storage — hence `total`
never exceeds `min(limit, max_limit)`, and it shrinks to 0 once the offset
moves past the matching rows (monotonically non-increasing in the
offset). -/
theorem C10_total_is_page_size (max_limit : Nat) (sel_e : List EventRow)
    (sel_i : List IncidentRow) (outcome : DbOutcome) (limit offset : Nat) :
    ((search_events max_limit sel_e outcome limit offset).total
      = (search_events max_limit sel_e outcome limit offset).data.length) ∧
    ((search_incidents max_limit sel_i outcome limit offset).total
      = (search_incidents max_limit sel_i outcome limit offset).data.length) ∧
    (search_events max_limit sel_e outcome limit offset).total ≤ min limit max_limit ∧
    (search_incidents max_limit sel_i outcome limit offset).total ≤ min limit max_limit ∧
    (sel_e.length ≤ offset →
      (search_events max_limit sel_e outcome limit offset).total = 0) ∧
    (sel_i.length ≤ offset →
      (search_incidents max_limit sel_i outcome limit offset).total = 0) ∧
    (∀ offset', offset ≤ offset' →
      (search_events max_limit sel_e outcome limit offset').total
        ≤ (search_events max_limit sel_e outcome limit offset).total) := by
  refine ⟨?_, ?_, ?_, ?_, ?_, ?_, ?_⟩
  · cases outcome <;> simp [search_events, executeWithSafeguards]
  · cases outcome <;> simp [search_incidents, executeWithSafeguards]
  · cases outcome <;>
      simp [search_events, executeWithSafeguards, List.length_take, List.length_drop] <;>
      omega
  · cases outcome <;>
      simp [search_incidents, executeWithSafeguards, List.length_take, List.length_drop] <;>
      omega
  · intro h
    cases outcome <;>
      simp [search_events, executeWithSafeguards, List.length_take, List.length_drop] <;>
      omega
  · intro h
    cases outcome <;>
      simp [search_incidents, executeWithSafeguards, List.length_take, List.length_drop] <;>
      omega
  · intro offset2 h2
    cases outcome <;>
      simp [search_events, executeWithSafeguards, List.length_take, List.length_drop] <;>
      omega

/-- Witness for C10: three matching event rows, limit 2, offset 4 — the
page is empty, so `total = 0` even though three rows match in storage. -/
theorem C10_total_is_page_size_witness :
    (search_events 5000 [evRow 0, evRow 1, evRow 2] DbOutcome.ok 2 4).total = 0 := by
  have h := C10_total_is_page_size 5000 [evRow 0, evRow 1, evRow 2] [] DbOutcome.ok 2 4
  exact h.2.2.2.2.1 (by decide)

/-- Folding drop-oldest puts over a bounded queue keeps exactly the most
recent elements: starting from a queue within capacity, the result is the
suffix of `queue ++ events` that fits the capacity. -/
theorem streamPut_foldl {α : Type} (cap : Nat) (hcap : 0 < cap) :
    ∀ (es q : List α), q.length ≤ cap →
      es.foldl (streamPut cap) q = (q ++ es).drop (q.length + es.length - cap) := by
  intro es
  induction es with
  | nil =>
    intro q hq
    simp [Nat.sub_eq_zero_of_le hq]
  | cons e es ih =>
    intro q hq
    rcases Nat.lt_or_ge q.length cap with hlt | hge
    · have hstep : streamPut cap q e = q ++ [e] := by
        have h1 : ¬ cap ≤ q.length := Nat.not_le.mpr hlt
        simp [streamPut, h1, hlt]
      rw [List.foldl_cons, hstep, ih (q ++ [e]) (by simp; omega)]
      have h1 : (q ++ [e]) ++ es = q ++ e :: es := by simp
      have h2 : (q ++ [e]).length + es.length - cap
          = q.length + (e :: es).length - cap := by simp; omega
      rw [h1, h2]
    · have heq : q.length = cap := le_antisymm hq hge
      cases q with
      | nil => simp at heq; omega
      | cons a qs =>
        have hqs : qs.length + 1 = cap := by simpa using heq
        have hstep : streamPut cap (a :: qs) e = qs ++ [e] := by
          have h1 : cap ≤ qs.length + 1 := by simpa using hge
          have h2 : qs.length < cap := by omega
          simp [streamPut, h1, h2]
        rw [List.foldl_cons, hstep, ih (qs ++ [e]) (by simp; omega)]
        have h1 : (qs ++ [e]) ++ es = qs ++ e :: es := by simp
        have h2 : (qs ++ [e]).length + es.length - cap = es.length := by simp; omega
        rw [h1, h2]
        have h3 : (a :: qs).length + (e :: es).length - cap = es.length + 1 := by
          simp; omega
        rw [h3]
        rfl

/-- C5: publishing into a subscriber whose bounded queue is full drops the
single oldest queued item before enqueueing the new one, so a burst of
`n ≥ cap` rapid publishes into an initially empty queue (the sender loop
not draining in between) leaves exactly `cap` items: the `cap` most recent
ones, the oldest `n - cap` dropped. -/
theorem C5_backpressure_drop_oldest {α : Type} (cap : Nat) (es : List α)
    (hcap : 0 < cap) (hlen : cap ≤ es.length) :
    es.foldl (streamPut cap) [] = es.drop (es.length - cap) ∧
    (es.foldl (streamPut cap) []).length = cap := by
  have h := streamPut_foldl cap hcap es []
  simp at h
  refine ⟨h, ?_⟩
  rw [h, List.length_drop]
  omega

/-- Witness for C5: the spec's own numbers — capacity 100, 150 rapid
publishes — leave the 100 most recent items (the oldest 50 dropped). -/
theorem C5_backpressure_drop_oldest_witness :
    (List.range 150).foldl (streamPut 100) [] = (List.range 150).drop 50 ∧
    ((List.range 150).foldl (streamPut 100) []).length = 100 := by
  have h := C5_backpressure_drop_oldest 100 (List.range 150) (by decide) (by simp)
  simpa using h

/-- `find?` returns the first element satisfying the predicate: its index,
and every earlier element fails the predicate. -/
theorem find?_first_match {α : Type} (p : α → Bool) :
    ∀ (l : List α) (a : α), l.find? p = some a →
      ∃ i : Fin l.length, l.get i = a ∧ p a = true ∧
        ∀ j : Fin l.length, j.val < i.val → p (l.get j) = false := by
  intro l
  induction l with
  | nil => intro a h; simp at h
  | cons x xs ih =>
    intro a h
    by_cases hx : p x = true
    · rw [List.find?_cons_of_pos _ hx] at h
      obtain rfl : x = a := by injection h
      exact ⟨⟨0, by simp⟩, rfl, hx, fun j hj => absurd hj (Nat.not_lt_zero _)⟩
    · have hx' : p x = false := by simpa using hx
      rw [List.find?_cons_of_neg _ (by simp [hx'])] at h
      obtain ⟨i, hget, hpa, hprev⟩ := ih a h
      refine ⟨⟨i.val + 1, by simpa using Nat.succ_lt_succ i.isLt⟩, by simpa using hget,
        hpa, ?_⟩
      intro j hj
      rcases j with ⟨jv, hjv⟩
      cases jv with
      | zero => simpa using hx'
      | succ jv' =>
        have hj' : jv' < i.val := by simpa using hj
        simpa using hprev ⟨jv', by simpa using hjv⟩ hj'

/-- C7: whenever `evaluate_event` returns a rule, the rules were scanned
in priority-descending order (the sorted list is ordered and is a
permutation of the tenant's rule set), the returned rule is enabled and
its condition matched, and every rule strictly earlier in that order —
i.e. every rule considered before it — was either disabled (skipped
without evaluating its condition) or failed its condition; rules after
the match are never reached. -/
theorem C7_rule_priority_first_match (rules : List RuleSchema) (event : PyVal)
    (r : RuleSchema) (h : evaluate_event rules event = some r) :
    List.Sorted rulePriorityGE (sortRulesByPriority rules) ∧
    (sortRulesByPriority rules).Perm rules ∧
    ∃ i : Fin (sortRulesByPriority rules).length,
      (sortRulesByPriority rules).get i = r ∧ r.enabled = true ∧
      evaluate_condition r event = true ∧
      ∀ j : Fin (sortRulesByPriority rules).length, j.val < i.val →
        ((sortRulesByPriority rules).get j).enabled = false ∨
        evaluate_condition ((sortRulesByPriority rules).get j) event = false := by
  refine ⟨List.sorted_insertionSort rulePriorityGE rules, List.perm_insertionSort rulePriorityGE rules, ?_⟩
  unfold evaluate_event at h
  by_cases h1 : (!pyTruthy (pyGet event "tenant_id")) = true
  · rw [if_pos h1] at h; exact absurd h (by simp)
  · rw [if_neg h1] at h
    by_cases h2 : rules.isEmpty = true
    · rw [if_pos h2] at h; exact absurd h (by simp)
    · rw [if_neg h2] at h
      obtain ⟨i, hget, hpa, hprev⟩ :=
        find?_first_match (fun r => r.enabled && evaluate_condition r event)
          (sortRulesByPriority rules) r h
      have hand : r.enabled = true ∧ evaluate_condition r event = true := by
        simpa using hpa
      refine ⟨i, hget, hand.1, hand.2, ?_⟩
      intro j hj
      have hfail := hprev j hj
      by_cases he : ((sortRulesByPriority rules).get j).enabled = true
      · have himp : ((sortRulesByPriority rules).get j).enabled = true →
            evaluate_condition ((sortRulesByPriority rules).get j) event = false := by
          simpa using hfail
        exact Or.inr (himp he)
      · exact Or.inl (by simpa using he)

/-- A rule triggering on execution latency above 10, at two priorities. -/
def ruleHigh : RuleSchema :=
  { id := "r-high", tenant_id := "tenant-a", name := "latency-high",
    enabled := true, priority := 5,
    condition := { type := "execution_latency",
                   parameters := PyVal.dict [("threshold", PyVal.int 10)] },
    actions := { create_incident := true, severity := "medium", notify := false } }

/-- The same latency rule at priority 1. -/
def ruleLow : RuleSchema :=
  { ruleHigh with id := "r-low", name := "latency-low", priority := 1 }

/-- An event of `tenant-a` with duration 50, matching both rules. -/
def ruleEvent : PyVal :=
  PyVal.dict [("tenant_id", PyVal.str "tenant-a"), ("duration", PyVal.int 50)]

/-- Witness for C7: between two enabled matching rules, the priority-5 one
is returned and the priority-1 one is never reached. -/
theorem C7_rule_priority_first_match_witness :
    ∃ i : Fin (sortRulesByPriority [ruleLow, ruleHigh]).length,
      (sortRulesByPriority [ruleLow, ruleHigh]).get i = ruleHigh ∧
      ruleHigh.enabled = true ∧
      evaluate_condition ruleHigh ruleEvent = true ∧
      ∀ j : Fin (sortRulesByPriority [ruleLow, ruleHigh]).length, j.val < i.val →
        ((sortRulesByPriority [ruleLow, ruleHigh]).get j).enabled = false ∨
        evaluate_condition ((sortRulesByPriority [ruleLow, ruleHigh]).get j) ruleEvent
          = false :=
  (C7_rule_priority_first_match [ruleLow, ruleHigh] ruleEvent ruleHigh rfl).2.2

/-- Unfolding one loop step of the detector: a hitting node returns its
skeleton, any other node (non-dict, non-dict metadata, or no marker) is
skipped. -/
theorem scanNodes_cons (execution node : PyVal) (rest : List PyVal) :
    scanNodesForFailure execution (node :: rest)
      = if nodeHits node = true then some (failureSkeleton execution node)
        else scanNodesForFailure execution rest := by
  by_cases h1 : isDictV node = true
  · by_cases h2 : isDictV (pyGetD node "metadata" (PyVal.dict [])) = true
    · by_cases h3 : failureMarkerIn (pyGetD node "metadata" (PyVal.dict [])) = true
      · simp [scanNodesForFailure, nodeHits, h1, h2, h3]
      · simp [scanNodesForFailure, nodeHits, h1, h2, h3]
    · simp [scanNodesForFailure, nodeHits, h1, h2]
  · simp [scanNodesForFailure, nodeHits, h1]

/-- The detector loop skips every non-hitting prefix and returns on the
first hitting node. -/
theorem scanNodes_first (execution : PyVal) (pre : List PyVal) (node : PyVal)
    (post : List PyVal) (hpre : ∀ m ∈ pre, nodeHits m = false)
    (hhit : nodeHits node = true) :
    scanNodesForFailure execution (pre ++ node :: post)
      = some (failureSkeleton execution node) := by
  induction pre with
  | nil => rw [List.nil_append, scanNodes_cons, if_pos hhit]
  | cons m pre ih =>
    rw [List.cons_append, scanNodes_cons,
      if_neg (by simp [hpre m (List.mem_cons_self m pre)])]
    exact ih (fun m' hm' => hpre m' (List.mem_cons_of_mem m hm'))

/-- When no node hits, the detector loop returns no detection. -/
theorem scanNodes_none (execution : PyVal) (ns : List PyVal)
    (h : ∀ m ∈ ns, nodeHits m = false) :
    scanNodesForFailure execution ns = Option.none := by
  induction ns with
  | nil => rfl
  | cons m ns ih =>
    rw [scanNodes_cons, if_neg (by simp [h m (List.mem_cons_self m ns)])]
    exact ih (fun m' hm' => h m' (List.mem_cons_of_mem m hm'))

/-- C8: `detect_execution_failure` is a total function of the payload (the
source returns rather than raises on every input): a non-dict payload
yields no detection; a non-list nodes collection yields no detection;
non-dict nodes and non-dict metadata entries are skipped, the first node
whose metadata (string form, lowercased) carries an
`error`/`exception`/`traceback` marker wins and its skeleton — which by
construction has no fingerprint and no occurrence count — is returned; and
if no node hits, no detection is returned. -/
theorem C8_detect_never_raises_first_match :
    (∀ v : PyVal, isDictV v = false → detect_execution_failure v = Option.none) ∧
    (∀ v : PyVal, isListV (extractNodes v) = false →
      detect_execution_failure v = Option.none) ∧
    (∀ execution : PyVal, ∀ pre : List PyVal, ∀ node : PyVal, ∀ post : List PyVal,
      isDictV execution = true →
      extractNodes execution = PyVal.list (pre ++ node :: post) →
      (∀ m ∈ pre, nodeHits m = false) → nodeHits node = true →
      detect_execution_failure execution = some (failureSkeleton execution node)) ∧
    (∀ execution : PyVal, ∀ ns : List PyVal,
      extractNodes execution = PyVal.list ns → (∀ m ∈ ns, nodeHits m = false) →
      detect_execution_failure execution = Option.none) := by
  refine ⟨?_, ?_, ?_, ?_⟩
  · intro v h
    simp [detect_execution_failure, h]
  · intro v h
    by_cases hd : isDictV v = true
    · unfold detect_execution_failure
      rw [if_pos hd]
      cases hev : extractNodes v <;> simp_all [isListV]
    · simp [detect_execution_failure, hd]
  · intro execution pre node post hd hev hpre hhit
    unfold detect_execution_failure
    rw [if_pos hd, hev]
    exact scanNodes_first execution pre node post hpre hhit
  · intro execution ns hev hnone
    by_cases hd : isDictV execution = true
    · unfold detect_execution_failure
      rw [if_pos hd, hev]
      exact scanNodes_none execution ns hnone
    · simp [detect_execution_failure, hd]

/-- A non-dict node (skipped by the detector loop). -/
def badNode : PyVal := PyVal.int 7

/-- A healthy node without failure markers. -/
def okNode : PyVal :=
  PyVal.dict [("metadata", PyVal.dict [("status", PyVal.str "ok")])]

/-- A node whose metadata carries an `error` key. -/
def failNode : PyVal :=
  PyVal.dict [("name", PyVal.str "CrashNode"),
              ("metadata", PyVal.dict [("error", PyVal.str "Timeout")])]

/-- An execution with a nested `graph.nodes` list mixing all three. -/
def demoExec : PyVal :=
  PyVal.dict [("execution_id", PyVal.str "exec-9"),
              ("graph", PyVal.dict [("nodes",
                PyVal.list [badNode, okNode, failNode])])]

/-- Witness for C8: a non-dict payload and a non-list nodes collection
yield no detection; on a mixed nodes list the first marker-carrying node
wins past a skipped non-dict node and a healthy node. -/
theorem C8_detect_never_raises_first_match_witness :
    detect_execution_failure (PyVal.int 3) = Option.none ∧
    detect_execution_failure (PyVal.dict [("nodes", PyVal.int 0)]) = Option.none ∧
    detect_execution_failure demoExec = some (failureSkeleton demoExec failNode) := by
  obtain ⟨h1, h2, h3, _⟩ := C8_detect_never_raises_first_match
  refine ⟨h1 (PyVal.int 3) rfl, h2 (PyVal.dict [("nodes", PyVal.int 0)]) rfl, ?_⟩
  refine h3 demoExec [badNode, okNode] failNode [] rfl rfl ?_ rfl
  intro m hm
  cases hm with
  | head => rfl
  | tail _ hm2 =>
    cases hm2 with
    | head => rfl
    | tail _ hm3 => cases hm3

/-- Membership after a drop-oldest put: the element was already queued or
is the newly published one. -/
theorem streamPut_mem {α : Type} (cap : Nat) (q : List α) (e x : α)
    (h : x ∈ streamPut cap q e) : x ∈ q ∨ x = e := by
  by_cases h1 : cap ≤ q.length
  · by_cases h2 : (q.drop 1).length < cap
    · simp only [streamPut, if_pos h1, if_pos h2] at h
      rcases List.mem_append.mp h with hq | he
      · exact Or.inl (List.drop_subset 1 q hq)
      · exact Or.inr (by simpa using he)
    · simp only [streamPut, if_pos h1, if_neg h2] at h
      exact Or.inl (List.drop_subset 1 q h)
  · by_cases h2 : q.length < cap
    · simp only [streamPut, if_neg h1, if_pos h2] at h
      rcases List.mem_append.mp h with hq | he
      · exact Or.inl hq
      · exact Or.inr (by simpa using he)
    · simp only [streamPut, if_neg h1, if_neg h2] at h
      exact Or.inl h

/-- One publish preserves the per-subscriber queue invariant: only events
passing the subscriber's own guards are ever enqueued, and the guards read
only the fields publish never changes. -/
theorem publish_event_inv (subs : List Subscriber) (ev : PyVal)
    (hinv : ∀ sub ∈ subs, queueInvariant sub) :
    ∀ sub' ∈ publish_event subs ev, queueInvariant sub' := by
  intro sub' hsub'
  unfold publish_event at hsub'
  by_cases ht : (!pyTruthy (pyGet ev "tenant_id")) = true
  · rw [if_pos ht] at hsub'
    exact hinv sub' hsub'
  · rw [if_neg ht] at hsub'
    obtain ⟨sub, hsub, heq⟩ := List.mem_map.mp hsub'
    by_cases hacc : publishAccepts sub ev = true
    · rw [if_pos hacc] at heq
      subst heq
      intro e he
      rcases streamPut_mem 1000 sub.queue ev e he with hq | rfl
      · exact hinv sub hsub e hq
      · exact hacc
    · rw [if_neg hacc] at heq
      subst heq
      exact hinv sub hsub

/-- A whole burst of publishes preserves the queue invariant. -/
theorem publishBurst_inv (events : List PyVal) :
    ∀ subs : List Subscriber, (∀ sub ∈ subs, queueInvariant sub) →
      ∀ sub' ∈ events.foldl publish_event subs, queueInvariant sub' := by
  induction events with
  | nil => intro subs h sub' hs; exact h sub' hs
  | cons ev evs ih =>
    intro subs h sub' hs
    exact ih (publish_event subs ev) (publish_event_inv subs ev h) sub' hs

/-- What a passed guard says about the queued event: the event's tenant is
exactly the subscriber's, a set node filter was matched literally, and an
`incident_only` subscriber only ever holds incident-flagged events. -/
theorem publishAccepts_spec (sub : Subscriber) (e : PyVal)
    (h : publishAccepts sub e = true) :
    pyGet e "tenant_id" = PyVal.str sub.tenant_id ∧
    (∀ x, sub.node_filter = some x → pyGetD e "node" (PyVal.str "") = PyVal.str x) ∧
    (sub.incident_only = true →
      pyTruthy (pyGetD e "incident_flag" (PyVal.bool false)) = true) := by
  unfold publishAccepts at h
  simp only [Bool.and_eq_true] at h
  obtain ⟨⟨h1, h2⟩, h3⟩ := h
  refine ⟨?_, ?_, ?_⟩
  · cases hv : pyGet e "tenant_id" with
    | str t =>
      rw [hv] at h1
      have ht : sub.tenant_id = t := by simpa using h1
      rw [ht]
    | none => rw [hv] at h1; simp at h1
    | bool b => rw [hv] at h1; simp at h1
    | int n => rw [hv] at h1; simp at h1
    | list xs => rw [hv] at h1; simp at h1
    | dict es => rw [hv] at h1; simp at h1
  · intro x hx
    rw [hx] at h2
    unfold nodeFilterMatches at h2
    cases hn : pyGetD e "node" (PyVal.str "") with
    | str s =>
      rw [hn] at h2
      have hs : x = s := by simpa using h2
      rw [hs]
    | none => rw [hn] at h2; simp at h2
    | bool b => rw [hn] at h2; simp at h2
    | int n => rw [hn] at h2; simp at h2
    | list xs => rw [hn] at h2; simp at h2
    | dict es => rw [hn] at h2; simp at h2
  · intro hio
    rw [hio] at h3
    simpa using h3

/-- C6: over any burst of publishes (any list of events, in any order),
starting from subscribers whose queues already satisfy the isolation
invariant (e.g. fresh empty queues), every event sitting in any
subscriber's queue afterwards carries exactly that subscriber's tenant,
matches its `node` filter when one is set, and is incident-flagged when
the subscriber asked for incidents only — cross-tenant or
filter-mismatched events are never enqueued. -/
theorem C6_tenant_and_filter_isolation (subs : List Subscriber)
    (events : List PyVal) (hinv : ∀ sub ∈ subs, queueInvariant sub) :
    ∀ sub' ∈ events.foldl publish_event subs, ∀ e ∈ sub'.queue,
      pyGet e "tenant_id" = PyVal.str sub'.tenant_id ∧
      (∀ x, sub'.node_filter = some x →
        pyGetD e "node" (PyVal.str "") = PyVal.str x) ∧
      (sub'.incident_only = true →
        pyTruthy (pyGetD e "incident_flag" (PyVal.bool false)) = true) := by
  intro sub' hsub' e he
  exact publishAccepts_spec sub' e (publishBurst_inv events subs hinv sub' hsub' e he)

/-- A fresh subscriber of `tenant-a` filtered to node `X`. -/
def subA : Subscriber :=
  { tenant_id := "tenant-a", node_filter := some "X", incident_only := false,
    queue := [] }

/-- An event of `tenant-a` on node `X` (passes `subA`'s guards). -/
def evX : PyVal :=
  PyVal.dict [("tenant_id", PyVal.str "tenant-a"), ("node", PyVal.str "X")]

/-- An event of `tenant-b` on node `X` (other tenant, same burst). -/
def evOther : PyVal :=
  PyVal.dict [("tenant_id", PyVal.str "tenant-b"), ("node", PyVal.str "X")]

/-- An event of `tenant-a` on node `Y` (filter mismatch, same burst). -/
def evY : PyVal :=
  PyVal.dict [("tenant_id", PyVal.str "tenant-a"), ("node", PyVal.str "Y")]

/-- Witness for C6: after the burst `[evOther, evX, evY]` the subscriber's
queue is exactly `[evX]`, and the theorem instantiated at that queue's
single element yields the tenant and node-filter facts. -/
theorem C6_tenant_and_filter_isolation_witness :
    List.foldl publish_event [subA] [evOther, evX, evY]
      = [{ subA with queue := [evX] }] ∧
    pyGet evX "tenant_id" = PyVal.str "tenant-a" ∧
    pyGetD evX "node" (PyVal.str "") = PyVal.str "X" := by
  have hres : List.foldl publish_event [subA] [evOther, evX, evY]
      = [{ subA with queue := [evX] }] := rfl
  have h := C6_tenant_and_filter_isolation [subA] [evOther, evX, evY]
    (by intro sub hs e he
        rw [List.mem_singleton] at hs
        subst hs
        cases he)
    { subA with queue := [evX] } (by rw [hres]; exact List.mem_singleton_self _)
    evX (List.mem_singleton_self _)
  exact ⟨hres, h.1, h.2.1 "X" rfl⟩

/-- When no row matches, the dedup SELECT finds nothing. -/
theorem bestMatchIdx_none (p : IncidentRow → Bool) :
    ∀ db : List IncidentRow, (∀ r ∈ db, p r = false) →
      bestMatchIdx p db = Option.none := by
  intro db
  induction db with
  | nil => intro _; rfl
  | cons r rest ih =>
    intro h
    have hr : p r = false := h r (List.mem_cons_self r rest)
    have htail := ih (fun x hx => h x (List.mem_cons_of_mem r hx))
    simp [bestMatchIdx, htail, hr]

/-- When exactly the appended row matches, the dedup SELECT picks it. -/
theorem bestMatchIdx_append_single (p : IncidentRow → Bool) (x : IncidentRow)
    (hx : p x = true) :
    ∀ db : List IncidentRow, (∀ r ∈ db, p r = false) →
      bestMatchIdx p (db ++ [x]) = some (db.length, x.timestamp) := by
  intro db
  induction db with
  | nil => intro _; simp [bestMatchIdx, hx]
  | cons r rest ih =>
    intro h
    have hr : p r = false := h r (List.mem_cons_self r rest)
    have htail := ih (fun y hy => h y (List.mem_cons_of_mem r hy))
    simp [bestMatchIdx, htail, hr]

/-- Updating the appended row leaves the prefix untouched. -/
theorem updateAt_append {α : Type} (f : α → α) (x : α) :
    ∀ db : List α, updateAt (db ++ [x]) db.length f = db ++ [f x] := by
  intro db
  induction db with
  | nil => rfl
  | cons r rest ih => simp [updateAt, ih]

/-- Rows kept by a pointwise-false predicate filter to nothing. -/
theorem filter_false_of_forall {α : Type} (p : α → Bool) :
    ∀ l : List α, (∀ r ∈ l, p r = false) → l.filter p = [] := by
  intro l
  induction l with
  | nil => intro _; rfl
  | cons r rest ih =>
    intro h
    have hr : p r = false := h r (List.mem_cons_self r rest)
    have htail := ih (fun x hx => h x (List.mem_cons_of_mem r hx))
    simp [List.filter_cons, hr, htail]

/-- C1: starting from a store holding no incident of this tenant and
fingerprint, two detections with identical `(failure_type, node_name)` —
hence the identical fingerprint — processed at `dt1 ≤ dt2` within the 24 h
window (`dt2 - dt1 ≤ 86400` seconds) and with storage available leave
exactly one incident row for that tenant and fingerprint: the first call
inserts it (`occurrence_count = 1`) and reports a new incident — the only
`process_incident` alert dispatch — and the second call increments
`occurrence_count` to 2 and advances the timestamp to `dt2`, reporting
no new incident, so no second dispatch fires. -/
theorem C1_dedup_window_single_alert (db : List IncidentRow) (id1 id2 : Nat)
    (inc : IncidentData) (dt1 dt2 : Int)
    (hfresh : ∀ r ∈ db, ¬(r.tenant_id = inc.tenant_id ∧
        r.fingerprint = incidentFingerprint inc.failure_type inc.node_name))
    (horder : dt1 ≤ dt2) (hwindow : dt2 - dt1 ≤ 86400) :
    incidentUpsert db id1 inc dt1
      = (db ++ [{ id := id1, tenant_id := inc.tenant_id,
                  execution_id := inc.execution_id, timestamp := dt1,
                  failure_type := inc.failure_type, node_name := inc.node_name,
                  summary := inc.summary,
                  fingerprint := incidentFingerprint inc.failure_type inc.node_name,
                  occurrence_count := 1 }], true) ∧
    incidentUpsert
        (db ++ [{ id := id1, tenant_id := inc.tenant_id,
                  execution_id := inc.execution_id, timestamp := dt1,
                  failure_type := inc.failure_type, node_name := inc.node_name,
                  summary := inc.summary,
                  fingerprint := incidentFingerprint inc.failure_type inc.node_name,
                  occurrence_count := 1 }]) id2 inc dt2
      = (db ++ [{ id := id1, tenant_id := inc.tenant_id,
                  execution_id := inc.execution_id, timestamp := dt2,
                  failure_type := inc.failure_type, node_name := inc.node_name,
                  summary := inc.summary,
                  fingerprint := incidentFingerprint inc.failure_type inc.node_name,
                  occurrence_count := 2 }], false) ∧
    ((db ++ [({ id := id1, tenant_id := inc.tenant_id,
                execution_id := inc.execution_id, timestamp := dt2,
                failure_type := inc.failure_type, node_name := inc.node_name,
                summary := inc.summary,
                fingerprint := incidentFingerprint inc.failure_type inc.node_name,
                occurrence_count := 2 } : IncidentRow)]).filter (fun r =>
        r.tenant_id == inc.tenant_id &&
          r.fingerprint == incidentFingerprint inc.failure_type inc.node_name)).length
      = 1 := by
  have hnomatch : ∀ cutoff : Int, ∀ r ∈ db,
      rowMatchesQuery inc.tenant_id
        (incidentFingerprint inc.failure_type inc.node_name) cutoff r = false := by
    intro cutoff r hr
    have hnf := hfresh r hr
    unfold rowMatchesQuery
    by_cases h1 : r.tenant_id = inc.tenant_id
    · by_cases h2 : r.fingerprint = incidentFingerprint inc.failure_type inc.node_name
      · exact absurd ⟨h1, h2⟩ hnf
      · simp [h2]
    · simp [h1]
  have hstep1 : incidentUpsert db id1 inc dt1
      = (db ++ [{ id := id1, tenant_id := inc.tenant_id,
                  execution_id := inc.execution_id, timestamp := dt1,
                  failure_type := inc.failure_type, node_name := inc.node_name,
                  summary := inc.summary,
                  fingerprint := incidentFingerprint inc.failure_type inc.node_name,
                  occurrence_count := 1 }], true) := by
    have hsel := bestMatchIdx_none _ db (hnomatch (dt1 - 86400))
    simp only [incidentUpsert, hsel]
  have hrowhit : rowMatchesQuery inc.tenant_id
      (incidentFingerprint inc.failure_type inc.node_name) (dt2 - 86400)
      { id := id1, tenant_id := inc.tenant_id,
        execution_id := inc.execution_id, timestamp := dt1,
        failure_type := inc.failure_type, node_name := inc.node_name,
        summary := inc.summary,
        fingerprint := incidentFingerprint inc.failure_type inc.node_name,
        occurrence_count := 1 } = true := by
    have hcut : dt2 - 86400 ≤ dt1 := by omega
    simp [rowMatchesQuery, hcut]
  have hstep2 : incidentUpsert
      (db ++ [{ id := id1, tenant_id := inc.tenant_id,
                execution_id := inc.execution_id, timestamp := dt1,
                failure_type := inc.failure_type, node_name := inc.node_name,
                summary := inc.summary,
                fingerprint := incidentFingerprint inc.failure_type inc.node_name,
                occurrence_count := 1 }]) id2 inc dt2
      = (db ++ [{ id := id1, tenant_id := inc.tenant_id,
                  execution_id := inc.execution_id, timestamp := dt2,
                  failure_type := inc.failure_type, node_name := inc.node_name,
                  summary := inc.summary,
                  fingerprint := incidentFingerprint inc.failure_type inc.node_name,
                  occurrence_count := 2 }], false) := by
    have hsel := bestMatchIdx_append_single _ _ hrowhit db (hnomatch (dt2 - 86400))
    simp only [incidentUpsert, hsel, updateAt_append]
  have hdbfilter : db.filter (fun r =>
      r.tenant_id == inc.tenant_id &&
        r.fingerprint == incidentFingerprint inc.failure_type inc.node_name) = [] := by
    apply filter_false_of_forall
    intro r hr
    have hnf := hfresh r hr
    by_cases h1 : r.tenant_id = inc.tenant_id
    · by_cases h2 : r.fingerprint = incidentFingerprint inc.failure_type inc.node_name
      · exact absurd ⟨h1, h2⟩ hnf
      · simp [h2]
    · simp [h1]
  refine ⟨hstep1, hstep2, ?_⟩
  rw [List.filter_append, hdbfilter]
  simp

/-- The detection payload of the C1 witness. -/
def c1Inc : IncidentData :=
  { tenant_id := "tenant-a", execution_id := PyVal.str "exec-1",
    failure_type := "runtime_error", node_name := PyVal.str "CrashNode",
    summary := "Execution failure detected in node metadata." }

/-- Witness for C1: the same failure of `tenant-a` at `dt1 = 1000` and
`dt2 = 2000` (1000 s apart, inside the 24 h window) against an empty
store — one insert with an alert, then one increment without. -/
theorem C1_dedup_window_single_alert_witness :
    incidentUpsert [] 7 c1Inc 1000
      = ([{ id := 7, tenant_id := c1Inc.tenant_id,
            execution_id := c1Inc.execution_id, timestamp := 1000,
            failure_type := c1Inc.failure_type, node_name := c1Inc.node_name,
            summary := c1Inc.summary,
            fingerprint := incidentFingerprint c1Inc.failure_type c1Inc.node_name,
            occurrence_count := 1 }], true) ∧
    incidentUpsert [{ id := 7, tenant_id := c1Inc.tenant_id,
                      execution_id := c1Inc.execution_id, timestamp := 1000,
                      failure_type := c1Inc.failure_type, node_name := c1Inc.node_name,
                      summary := c1Inc.summary,
                      fingerprint := incidentFingerprint c1Inc.failure_type c1Inc.node_name,
                      occurrence_count := 1 }] 8 c1Inc 2000
      = ([{ id := 7, tenant_id := c1Inc.tenant_id,
            execution_id := c1Inc.execution_id, timestamp := 2000,
            failure_type := c1Inc.failure_type, node_name := c1Inc.node_name,
            summary := c1Inc.summary,
            fingerprint := incidentFingerprint c1Inc.failure_type c1Inc.node_name,
            occurrence_count := 2 }], false) := by
  have h := C1_dedup_window_single_alert [] 7 8 c1Inc 1000 2000
    (by intro r hr; cases hr) (by decide) (by decide)
  exact ⟨by simpa using h.1, by simpa using h.2.1⟩

/-- Looking a key up after the in-place replacement of another key:
replacement preserves every entry's key, so the first hit sits at the same
position, its value swapped exactly when its key is the assigned one. -/
theorem find?_map_setItem (key : String) (val : PyVal) (k : String) :
    ∀ entries : List (String × PyVal),
      ((entries.map (fun kv => if kv.1 == key then (kv.1, val) else kv)).find?
          (fun kv => kv.1 == k))
        = (entries.find? (fun kv => kv.1 == k)).map
            (fun kv => if kv.1 == key then (kv.1, val) else kv) := by
  intro entries
  induction entries with
  | nil => rfl
  | cons kv rest ih =>
    have hcons : ∀ (l : List (String × PyVal)) (x : String × PyVal),
        (x :: l).find? (fun kv => kv.1 == k)
          = if (x.1 == k) = true then some x else l.find? (fun kv => kv.1 == k) := by
      intro l x
      by_cases hx : (x.1 == k) = true <;> simp [List.find?, hx]
    by_cases hkey : (kv.1 == key) = true
    · have hkeq : kv.1 = key := by simpa using hkey
      have hf : (if kv.1 == key then (kv.1, val) else kv) = (kv.1, val) := if_pos hkey
      simp only [List.map_cons, hf, hcons]
      by_cases hk : (kv.1 == k) = true
      · rw [if_pos (show (((kv.1, val) : String × PyVal).1 == k) = true from hk),
          if_pos hk]
        simp [hkeq]
      · rw [if_neg (show ¬ (((kv.1, val) : String × PyVal).1 == k) = true from hk),
          if_neg hk, ih]
    · have hkeq : ¬ kv.1 = key := by simpa using hkey
      have hf : (if kv.1 == key then (kv.1, val) else kv) = kv := if_neg hkey
      simp only [List.map_cons, hf, hcons]
      by_cases hk : (kv.1 == k) = true
      · rw [if_pos hk, if_pos hk]
        simp [hkeq]
      · rw [if_neg hk, if_neg hk, ih]

/-- The effect of a Python dict assignment `d[key] = val`: the result is a
dict in which `key` maps to `val` and every other key reads as before. -/
theorem pySetItem_spec (entries : List (String × PyVal)) (key : String)
    (val : PyVal) :
    ∃ entries2 : List (String × PyVal),
      pySetItem (PyVal.dict entries) key val = some (PyVal.dict entries2) ∧
      dictGet (PyVal.dict entries2) key = some val ∧
      ∀ k, k ≠ key → dictGet (PyVal.dict entries2) k = dictGet (PyVal.dict entries) k := by
  by_cases hpresent : (entries.find? (fun kv => kv.1 == key)).isSome = true
  · refine ⟨entries.map (fun kv => if kv.1 == key then (kv.1, val) else kv),
      by simp [pySetItem, hpresent], ?_, ?_⟩
    · simp only [dictGet]
      rw [find?_map_setItem]
      obtain ⟨kv0, hkv0⟩ := Option.isSome_iff_exists.mp hpresent
      have hkey : (kv0.1 == key) = true :=
        List.find?_some (p := fun kv : String × PyVal => kv.1 == key) hkv0
      rw [hkv0]
      have hkeq : kv0.1 = key := by simpa using hkey
      simp [hkeq]
    · intro k hk
      simp only [dictGet]
      rw [find?_map_setItem]
      cases hfind : entries.find? (fun kv => kv.1 == k) with
      | none => rfl
      | some kv0 =>
        have hkk : kv0.1 = k := by
          simpa using List.find?_some (p := fun kv : String × PyVal => kv.1 == k) hfind
        simp [hkk, hk]
  · have hnone : entries.find? (fun kv => kv.1 == key) = Option.none := by
      cases hfind : entries.find? (fun kv => kv.1 == key) with
      | none => rfl
      | some kv0 => rw [hfind] at hpresent; simp at hpresent
    refine ⟨entries ++ [(key, val)], by simp [pySetItem, hpresent], ?_, ?_⟩
    · simp only [dictGet]
      rw [List.find?_append, hnone]
      simp
    · intro k hk
      simp only [dictGet]
      rw [List.find?_append]
      cases hfind : entries.find? (fun kv => kv.1 == k) with
      | some kv0 => simp [hfind]
      | none =>
        have hne : ¬ key = k := fun h => hk h.symm
        simp [hfind, hne]

/-- C9 amended: the pipeline touches the payload in exactly two places —
`enqueue` stamps (or overwrites) the server-side `_ingested_at` key, and
the post-write detection loop adds `tenant_id` when (and only when) the
key is absent, leaving it untouched when present.  Every other field of
the event payload reads exactly as the producer sent it: nothing else is
added, removed or changed by batching, flushing, detection or broadcast
(the broadcast enqueues the same object, see `publish_event`). -/
theorem C9_payload_mutation_confined (tenant now : String)
    (entries : List (String × PyVal)) :
    ∃ stamped bound : PyVal,
      enqueueStamp now (PyVal.dict entries) = some stamped ∧
      bindTenant { tenant_id := tenant, event := stamped } = some bound ∧
      dictGet stamped "_ingested_at" = some (PyVal.str now) ∧
      (∀ k, k ≠ "_ingested_at" → dictGet stamped k = dictGet (PyVal.dict entries) k) ∧
      (∀ k, k ≠ "tenant_id" → dictGet bound k = dictGet stamped k) ∧
      ((dictGet stamped "tenant_id").isSome → bound = stamped) := by
  obtain ⟨e1, hset1, hget1, hother1⟩ :=
    pySetItem_spec entries "_ingested_at" (PyVal.str now)
  by_cases htid : (dictGet (PyVal.dict e1) "tenant_id").isSome = true
  · exact ⟨PyVal.dict e1, PyVal.dict e1, hset1, by simp [bindTenant, htid],
      hget1, hother1, fun k _ => rfl, fun _ => rfl⟩
  · by_cases hten : tenant = ""
    · refine ⟨PyVal.dict e1, PyVal.dict e1, hset1, ?_, hget1, hother1,
        fun k _ => rfl, fun _ => rfl⟩
      subst hten
      simp [bindTenant, htid]
      intro hcontra
      exact absurd hcontra (by decide)
    · obtain ⟨e2, hset2, _, hother2⟩ := pySetItem_spec e1 "tenant_id" (PyVal.str tenant)
      refine ⟨PyVal.dict e1, PyVal.dict e2, hset1, ?_, hget1, hother1, hother2, ?_⟩
      · have hemp : tenant.isEmpty = false := by
          cases hcase : tenant.isEmpty with
          | false => rfl
          | true => exact absurd ((String.isEmpty_iff tenant).mp hcase) hten
        simpa [bindTenant, htid, hemp] using hset2
      · intro h
        exact absurd h (by simpa using htid)

/-- C9 counterexample: a producer event `{"id": "e1"}` without a
`tenant_id` is mutated after ingestion — `enqueue` adds the
`_ingested_at` key (line 56) and the detection loop of `_write_batch` adds
the `tenant_id` key (lines 160-161) — so the event payload does not stay
field-for-field identical, refuting the claim as stated. -/
theorem C9_counterexample :
    enqueueStamp "2026-01-01T00:00:00+00:00" (PyVal.dict [("id", PyVal.str "e1")])
      = some (PyVal.dict [("id", PyVal.str "e1"),
                          ("_ingested_at", PyVal.str "2026-01-01T00:00:00+00:00")]) ∧
    bindTenant { tenant_id := "tenant-a",
                 event := PyVal.dict [("id", PyVal.str "e1")] }
      = some (PyVal.dict [("id", PyVal.str "e1"),
                          ("tenant_id", PyVal.str "tenant-a")]) ∧
    PyVal.dict [("id", PyVal.str "e1"), ("tenant_id", PyVal.str "tenant-a")]
      ≠ PyVal.dict [("id", PyVal.str "e1")] := by
  refine ⟨rfl, rfl, ?_⟩
  intro h
  injection h with h2
  simp at h2
